import Mathlib

/-!
Shallow embedding of the WebSpider class from
scripts/spiders/web_spider_oo.py, together with proofs about its
link-filtering policy, breadth-first traversal, file persistence and
SQL indexing behaviour.

External collaborators (the HTTP session, the HTML anchor extractor,
the MD5 hex digest and the local file system) are modelled at their
interface boundary: a fetch-plus-extraction oracle of type
String to Response, an arbitrary digest function of type
String to String, and an association list from file path to content.
Everything else is translated line by line from the Python source.
-/

namespace WebSpiderModel

/-- Boolean substring test: the Python expression w in s for two
strings, i.e. the character list of w is an infix of that of s. -/
def strContains (s w : String) : Bool := decide (w.data <:+: s.data)

/-- Boolean suffix test: the Python expression s.endswith(suf), i.e.
the character list of suf is a suffix of that of s. -/
def pyEndsWith (s suf : String) : Bool := decide (suf.data <:+ s.data)

/-- Python str.lower, character-wise (the links and flags handled here
are ASCII, where the two agree). -/
def pyLower (s : String) : String := ⟨s.data.map Char.toLower⟩

/-- Python str.replace for a one-character pattern and replacement, as
used on the root site to turn URL separators into underscores: every
occurrence of the character a is replaced by b. -/
def replaceChar (s : String) (a b : Char) : String :=
  ⟨s.data.map (fun c => if c = a then b else c)⟩

/-- Local file store, modelled as an association list from file path to
file content; fsGet returns the content stored at a path. -/
def fsGet : List (String × String) → String → Option String
  | [], _ => none
  | p :: ps, n => if p.1 = n then some p.2 else fsGet ps n

/-- Truncating write, the Python open mode wb: the content stored at the
path is replaced (or the file is created). -/
def fsWrite : List (String × String) → String → String → List (String × String)
  | [], n, c => [(n, c)]
  | p :: ps, n, c => if p.1 = n then (n, c) :: ps else p :: fsWrite ps n c

/-- Appending write, the Python open mode a: the written text is appended
to the content already stored at the path (or the file is created). -/
def fsAppend (fs : List (String × String)) (n c : String) : List (String × String) :=
  fsWrite fs n (((fsGet fs n).getD "") ++ c)

/-- Python set.add on a set modelled as a duplicate-free list kept in
insertion order. -/
def setAdd (s : List String) (x : String) : List String :=
  if x ∈ s then s else s ++ [x]

/-- Python set.update: add every element of the second list in turn. -/
def setUpdate (s : List String) (xs : List String) : List String :=
  xs.foldl setAdd s

/-- Result of one call to get_request_with_delay together with the anchor
extraction get_all_links_from_page would perform on its body: the HTTP
status code, the href of every anchor tag (None for an anchor without
an href), the decoded text and the raw byte content of the response. -/
structure Response where
  status_code : Nat
  links : List (Option String)
  text : String
  content : String
deriving DecidableEq, Repr

/-- External collaborators of the spider: the MD5 hex digest used by
generate_output_file_name and the combined fetch-and-extract oracle. -/
structure Env where
  md5hex : String → String
  web : String → Response

/-- Uncaught Python exceptions that can escape the translated code:
the TypeError raised by a substring test on None inside
clean_webpage_links, the ValueError raised by generate_output_file_name
on a bad flag, and the AttributeError raised on line 126 of run_spider
when indexing_definitions_obj was never bound. -/
inductive Crash
  | typeError
  | valueError
  | attributeError
deriving DecidableEq, Repr

/-- One call to upload_data_to_sql, tagged by its flag: an index upload
carries the rows of a parent-child dataframe with columns
(pen_depth, parent_link, child_link); a unique_links upload carries the
rows of the unique-links dataframe with columns (link_id, link_name). -/
inductive SqlUpload
  | index (rows : List (Nat × String × String))
  | unique_links (rows : List (Nat × String))
deriving DecidableEq, Repr

/-- Constructor arguments of WebSpider plus the two values bound by
init helpers: indexing_on (true exactly when an
indexing_definitions_obj was provided) and the filter word list bound
by bind_filter_word_list. -/
structure SpiderConfig where
  root_site : String
  pen_depth : Nat
  raw_files_save_path : String
  indexing_on : Bool
  filter_word_list : List String
deriving DecidableEq, Repr

/-- Mutable state of one run of the spider: the visited set
unique_links_set, the per-depth accumulating child set
child_level_links, the trace of links handed to the fetcher, the trace
of SQL uploads, the number of engine dispose calls and the file store. -/
structure SpiderState where
  unique_links_set : List String
  child_level_links : List String
  fetches : List String
  sql_uploads : List SqlUpload
  dispose_calls : Nat
  files : List (String × String)
deriving DecidableEq, Repr

/-- State right after WebSpider init: an empty visited set and no
traffic yet; the file store starts as the pre-existing directory. -/
def initState (files0 : List (String × String)) : SpiderState :=
  { unique_links_set := []
    child_level_links := []
    fetches := []
    sql_uploads := []
    dispose_calls := 0
    files := files0 }

/-- List bound by bind_filter_word_list (source lines 167 to 188). -/
def filter_words_list : List String :=
  ["career", "login", "pay", "your", "account", "auth", "contact",
   "activate", "reservation", "book", "tel", "facebook", "instagram",
   "subscribe", "google", "linkedin", "youtube", "mail", "app", "App"]

/-- Inner iterations of the product loop of clean_webpage_links for one
non-None candidate s: for each filter word w, the candidate is appended
when w is not a substring of s and s is neither None nor the slash
string. -/
def cleanWords (s : String) : List String → List String
  | [] => []
  | w :: ws =>
      if strContains s w = false ∧ s ≠ "/" then s :: cleanWords s ws
      else cleanWords s ws

/-- Outer iterations of the product loop of clean_webpage_links. A None
candidate is substring-tested before the None membership check, so with
a nonempty filter word list it raises TypeError (modelled as the error
case); with an empty filter word list the product is empty and the None
candidate is silently skipped. -/
def cleanLinks (fwl : List String) : List (Option String) → Except Unit (List String)
  | [] => .ok []
  | none :: rest => if fwl = [] then cleanLinks fwl rest else .error ()
  | some s :: rest => (cleanLinks fwl rest).map (fun r => cleanWords s fwl ++ r)

/-- Method clean_webpage_links (source lines 225 to 255): iterate
product(links_list, filter_word_list), keep the pairs whose word is not
a substring of the link and whose link is neither None nor a slash, and
return the set of kept links (the set is modelled as a deduplicated
list). -/
def clean_webpage_links (fwl : List String) (links_list : List (Option String)) :
    Except Unit (List String) :=
  (cleanLinks fwl links_list).map List.dedup

/-- Name built by generate_output_file_name once its flag assertion has
passed: the root site with path separators replaced by underscores,
followed by the MD5 hex digest of root site plus webpage, a dot and the
lowercased flag. -/
def output_name (md5hex : String → String) (root_site webpage flag : String) : String :=
  replaceChar (replaceChar root_site '\\' '_') '/' '_' ++ md5hex (root_site ++ webpage)
    ++ "." ++ pyLower flag

/-- Method generate_output_file_name (source lines 326 to 340): raises
ValueError unless the lowercased flag is pdf or txt, otherwise returns
the deterministic output name. -/
def generate_output_file_name (md5hex : String → String)
    (root_site webpage file_type_flag : String) : Except Unit String :=
  if pyLower file_type_flag = "pdf" ∨ pyLower file_type_flag = "txt" then
    .ok (output_name md5hex root_site webpage file_type_flag)
  else .error ()

/-- Text written by save_webpage_as_text through one opened handle: the
root site line, the web url line, then the decoded response body. -/
def textHeaderEntry (root_site web_url text : String) : String :=
  "root_site:" ++ root_site ++ "\n" ++ ("web_url:" ++ web_url ++ "\n") ++ text

/-- Method save_webpage_as_text (source lines 311 to 317): append the
header lines and the response text to the file at save path plus
generated name plus the txt extension (open mode a). -/
def save_webpage_as_text (env : Env) (cfg : SpiderConfig) (st : SpiderState)
    (web_url : String) (resp : Response) : SpiderState × Option Crash :=
  match generate_output_file_name env.md5hex cfg.root_site web_url "txt" with
  | .error _ => (st, some Crash.valueError)
  | .ok save_name =>
      ({ st with files := (fsAppend st.files
            (cfg.raw_files_save_path ++ save_name ++ ".txt")
            (textHeaderEntry cfg.root_site web_url resp.text)) }, none)

/-- Method save_webpage_as_pdf (source lines 319 to 323): write the raw
response content to the file at save path plus generated name plus the
pdf extension (open mode wb, truncating). -/
def save_webpage_as_pdf (env : Env) (cfg : SpiderConfig) (st : SpiderState)
    (web_url : String) (resp : Response) : SpiderState × Option Crash :=
  match generate_output_file_name env.md5hex cfg.root_site web_url "pdf" with
  | .error _ => (st, some Crash.valueError)
  | .ok save_name =>
      ({ st with files := (fsWrite st.files
            (cfg.raw_files_save_path ++ save_name ++ ".pdf")
            resp.content) }, none)

/-- Method create_parent_child_dataframe (source lines 257 to 272): the
rows of product([pen_depth], [parent_link], child_links), one row per
child currently in the accumulated child set. -/
def create_parent_child_dataframe (pen_depth : Nat) (parent_link : String)
    (child_links : List String) : List (Nat × String × String) :=
  child_links.map (fun c => (pen_depth, parent_link, c))

/-- Method create_unique_links_df (source lines 275 to 280): the rows of
enumerate(unique_links_set). -/
def create_unique_links_df (unique_links : List String) : List (Nat × String) :=
  unique_links.enum

/-- Method upload_data_to_sql (source lines 283 to 309), called only with
the two valid flags: one append-only bulk insert against the target
named by the flag, recorded in the upload trace. -/
def upload_data_to_sql (st : SpiderState) (u : SqlUpload) : SpiderState :=
  { st with sql_uploads := st.sql_uploads ++ [u] }

/-- Lines 110 to 119 of run_spider for one successfully fetched and
saved parent: extract the raw child links, clean them (a TypeError from
the cleaning aborts the run), merge them into the accumulating child
set, and if indexing is on upload the parent-child dataframe built from
the whole accumulated child set. -/
def extract_and_index (cfg : SpiderConfig) (st : SpiderState)
    (parent_link : String) (resp : Response) : SpiderState × Option Crash :=
  match clean_webpage_links cfg.filter_word_list resp.links with
  | .error _ => (st, some Crash.typeError)
  | .ok cleaned =>
      let st1 := { st with child_level_links := setUpdate st.child_level_links cleaned }
      if cfg.indexing_on then
        (upload_data_to_sql st1 (SqlUpload.index
            (create_parent_child_dataframe cfg.pen_depth parent_link
              st1.child_level_links)), none)
      else (st1, none)

/-- Body of the inner loop of run_spider (source lines 90 to 119) for
one parent link: skip it when already visited, otherwise mark it
visited, fetch it, skip on a non-200 status, save the page as pdf or
text unless the lowercased link ends in xlsx or xls (in which case the
rest of the body is skipped), then extract, clean and index. -/
def process_parent (env : Env) (cfg : SpiderConfig) (st : SpiderState)
    (parent_link : String) : SpiderState × Option Crash :=
  if parent_link ∈ st.unique_links_set then (st, none)
  else
    let st1 := { st with unique_links_set := st.unique_links_set ++ [parent_link] }
    let resp := env.web parent_link
    let st2 := { st1 with fetches := st1.fetches ++ [parent_link] }
    if resp.status_code ≠ 200 then (st2, none)
    else if pyEndsWith (pyLower parent_link) "pdf" then
      match save_webpage_as_pdf env cfg st2 parent_link resp with
      | (st3, some c) => (st3, some c)
      | (st3, none) => extract_and_index cfg st3 parent_link resp
    else if pyEndsWith (pyLower parent_link) "xlsx" then (st2, none)
    else if pyEndsWith (pyLower parent_link) "xls" then (st2, none)
    else
      match save_webpage_as_text env cfg st2 parent_link resp with
      | (st3, some c) => (st3, some c)
      | (st3, none) => extract_and_index cfg st3 parent_link resp

/-- Inner loop of run_spider over one frontier, aborting at the first
uncaught exception. -/
def processLevel (env : Env) (cfg : SpiderConfig) (st : SpiderState) :
    List String → SpiderState × Option Crash
  | [] => (st, none)
  | l :: ls =>
      match process_parent env cfg st l with
      | (st', none) => processLevel env cfg st' ls
      | (st', some c) => (st', some c)

/-- Outer loop of run_spider (source lines 87 to 119): one iteration per
depth in range(pen_depth); each depth starts with an empty accumulating
child set, processes the current frontier, and the accumulated child
set becomes the next frontier. -/
def runLevels (env : Env) (cfg : SpiderConfig) :
    Nat → List String → SpiderState → SpiderState × Option Crash
  | 0, _, st => (st, none)
  | n + 1, frontier, st =>
      match processLevel env cfg { st with child_level_links := [] } frontier with
      | (st', none) => runLevels env cfg n st'.child_level_links st'
      | (st', some c) => (st', some c)

/-- Lines 121 to 126 of run_spider: after the loop, if indexing is on
upload the unique-links dataframe; then unconditionally dereference
indexing_definitions_obj to dispose the engine, which raises
AttributeError when indexing was never configured (the attribute is
only bound in the init branch that also sets indexing_on). -/
def finishRun (cfg : SpiderConfig) :
    SpiderState × Option Crash → SpiderState × Option Crash
  | (st, some c) => (st, some c)
  | (st, none) =>
      let st1 := if cfg.indexing_on then
          upload_data_to_sql st (SqlUpload.unique_links
            (create_unique_links_df st.unique_links_set))
        else st
      if cfg.indexing_on then ({ st1 with dispose_calls := st1.dispose_calls + 1 }, none)
      else (st1, some Crash.attributeError)

/-- Method run_spider (source lines 85 to 126): the depth loop starting
from the frontier containing exactly the root site, followed by the
final indexing uploads and the engine dispose. -/
def run_spider (env : Env) (cfg : SpiderConfig) (files0 : List (String × String)) :
    SpiderState × Option Crash :=
  finishRun cfg (runLevels env cfg cfg.pen_depth [cfg.root_site] (initState files0))

/-- Invariant: every index upload recorded so far carries pen_depth in
the first column of every row. -/
def EdgeDepthInv (cfg : SpiderConfig) (st : SpiderState) : Prop :=
  ∀ rs, SqlUpload.index rs ∈ st.sql_uploads → ∀ r ∈ rs, r.1 = cfg.pen_depth

/-! Concrete fixtures used for counterexamples and witnesses. -/

/-- Digest stub standing in for hashlib md5 hexdigest in concrete runs. -/
def md5c : String → String := fun _ => "H"

/-- Web on which every fetch returns status 404. -/
def webFail : String → Response := fun _ => ⟨404, [], "", ""⟩

/-- Environment with the stub digest and the all-404 web. -/
def envFail : Env := ⟨md5c, webFail⟩

/-- Web on which every fetch succeeds and yields one anchor. -/
def webSheet : String → Response := fun _ => ⟨200, [some "c"], "", ""⟩

/-- Environment with the stub digest and the always-200 web. -/
def envSheet : Env := ⟨md5c, webSheet⟩

/-- Two-page web for the indexing run: the root page r links to the
page zzz, which links to nothing; everything else is 404. -/
def webR : String → Response := fun l =>
  if l = "r" then ⟨200, [some "zzz"], "T", "C"⟩
  else if l = "zzz" then ⟨200, [], "", ""⟩
  else ⟨404, [], "", ""⟩

/-- Environment for the indexing run. -/
def envR : Env := ⟨md5c, webR⟩

/-- Indexing-enabled configuration with penetration depth 3, the real
filter word list and root r. -/
def cfgR : SpiderConfig := ⟨"r", 3, "", true, filter_words_list⟩

/-- Indexing-disabled configuration, as built by WebSpider when
indexing_definitions_obj is left at None. -/
def cfgOff : SpiderConfig := ⟨"http://example.com", 1, "/tmp/", false, filter_words_list⟩

/-- Web for the spec scenario: the root page of example.com yields the
anchors /about, the login page and one anchor without an href. -/
def webEx : String → Response := fun l =>
  if l = "http://example.com" then
    ⟨200, [some "/about", some "http://example.com/login", none], "T", "C"⟩
  else ⟨404, [], "", ""⟩

/-- Environment for the spec scenario. -/
def envEx : Env := ⟨md5c, webEx⟩

/-- Same scenario page with the href-less anchor removed. -/
def webEx2 : String → Response := fun l =>
  if l = "http://example.com" then
    ⟨200, [some "/about", some "http://example.com/login"], "T", "C"⟩
  else ⟨404, [], "", ""⟩

/-- Environment for the scenario without the None candidate. -/
def envEx2 : Env := ⟨md5c, webEx2⟩

/-- Scenario configuration from the spec: example.com root, penetration
depth 2, deny-list exactly login. -/
def cfgEx : SpiderConfig := ⟨"http://example.com", 2, "", false, ["login"]⟩

end WebSpiderModel

deriving instance DecidableEq for Except

namespace WebSpiderModel

/-! Helper lemmas about the set, file-store and string primitives. -/

theorem setAdd_mem (s : List String) (y x : String) :
    x ∈ setAdd s y ↔ x ∈ s ∨ x = y := by
  unfold setAdd
  split
  · rename_i hy
    constructor
    · exact Or.inl
    · rintro (h | rfl)
      · exact h
      · exact hy
  · simp

theorem setUpdate_mem (xs : List String) : ∀ (s : List String) (x : String),
    x ∈ setUpdate s xs ↔ x ∈ s ∨ x ∈ xs := by
  induction xs with
  | nil => simp [setUpdate]
  | cons y ys ih =>
      intro s x
      have h1 : setUpdate s (y :: ys) = setUpdate (setAdd s y) ys := rfl
      rw [h1, ih, setAdd_mem]
      simp [or_assoc]

theorem cleanWords_mem (s x : String) : ∀ ws : List String,
    x ∈ cleanWords s ws ↔ x = s ∧ s ≠ "/" ∧ ∃ w ∈ ws, strContains s w = false := by
  intro ws
  induction ws with
  | nil => simp [cleanWords]
  | cons w ws ih =>
      by_cases hc : strContains s w = false ∧ s ≠ "/"
      · rw [cleanWords, if_pos hc, List.mem_cons, ih]
        constructor
        · rintro (rfl | ⟨h1, h2, w', hw', hcc⟩)
          · exact ⟨rfl, hc.2, w, by simp, hc.1⟩
          · exact ⟨h1, h2, w', by simp [hw'], hcc⟩
        · rintro ⟨rfl, h2, w', hw', hcc⟩
          rcases List.mem_cons.1 hw' with rfl | hw''
          · exact Or.inl rfl
          · exact Or.inr ⟨rfl, h2, w', hw'', hcc⟩
      · rw [cleanWords, if_neg hc, ih]
        constructor
        · rintro ⟨h1, h2, w', hw', hcc⟩
          exact ⟨h1, h2, w', by simp [hw'], hcc⟩
        · rintro ⟨rfl, h2, w', hw', hcc⟩
          rcases List.mem_cons.1 hw' with rfl | hw''
          · exact absurd ⟨hcc, h2⟩ hc
          · exact ⟨rfl, h2, w', hw'', hcc⟩

theorem cleanLinks_ok_mem (fwl : List String) :
    ∀ (links : List (Option String)) (out : List String),
      cleanLinks fwl links = .ok out →
      ∀ x, x ∈ out ↔ some x ∈ links ∧ x ≠ "/" ∧ ∃ w ∈ fwl, strContains x w = false := by
  intro links
  induction links with
  | nil =>
      intro out h x
      rw [cleanLinks] at h
      injection h with h
      subst h
      simp
  | cons l ls ih =>
      cases l with
      | none =>
          intro out h x
          rw [cleanLinks] at h
          split at h
          · rename_i hf
            subst hf
            rw [ih out h]
            simp
          · exact absurd h (by simp)
      | some s =>
          intro out h x
          rw [cleanLinks] at h
          cases hr : cleanLinks fwl ls with
          | error e =>
              rw [hr] at h
              simp [Except.map] at h
          | ok r =>
              rw [hr] at h
              simp only [Except.map, Except.ok.injEq] at h
              subst h
              rw [List.mem_append, cleanWords_mem, ih r hr x]
              simp only [List.mem_cons, Option.some.injEq]
              constructor
              · rintro (⟨rfl, h2, hE⟩ | ⟨hm, h2, hE⟩)
                · exact ⟨Or.inl rfl, h2, hE⟩
                · exact ⟨Or.inr hm, h2, hE⟩
              · rintro ⟨rfl | hm, h2, hE⟩
                · exact Or.inl ⟨rfl, h2, hE⟩
                · exact Or.inr ⟨hm, h2, hE⟩

theorem clean_webpage_links_mem (fwl : List String) (links : List (Option String))
    (S : List String) (h : clean_webpage_links fwl links = .ok S) (x : String) :
    x ∈ S ↔ some x ∈ links ∧ x ≠ "/" ∧ ∃ w ∈ fwl, strContains x w = false := by
  unfold clean_webpage_links at h
  cases hr : cleanLinks fwl links with
  | error e => rw [hr] at h; simp [Except.map] at h
  | ok r =>
      rw [hr] at h
      simp only [Except.map, Except.ok.injEq] at h
      subst h
      rw [List.mem_dedup]
      exact cleanLinks_ok_mem fwl links r hr x

theorem fsGet_fsWrite_self (fs : List (String × String)) (n c : String) :
    fsGet (fsWrite fs n c) n = some c := by
  induction fs with
  | nil => simp [fsWrite, fsGet]
  | cons p ps ih =>
      rw [fsWrite]
      split
      · simp [fsGet]
      · rename_i hne
        rw [fsGet, if_neg hne]
        exact ih

theorem fsWrite_fsWrite (fs : List (String × String)) (n c c' : String) :
    fsWrite (fsWrite fs n c) n c' = fsWrite fs n c' := by
  induction fs with
  | nil => simp [fsWrite]
  | cons p ps ih =>
      rw [fsWrite]
      split
      · rename_i he
        simp [fsWrite, he]
      · rename_i hne
        rw [fsWrite, if_neg hne, fsWrite, if_neg hne, ih]

theorem fsGet_fsAppend_self (fs : List (String × String)) (n c : String) :
    fsGet (fsAppend fs n c) n = some (((fsGet fs n).getD "") ++ c) := by
  unfold fsAppend
  exact fsGet_fsWrite_self fs n _

theorem gen_txt_eq (md5 : String → String) (r w : String) :
    generate_output_file_name md5 r w "txt" = .ok (output_name md5 r w "txt") := by
  unfold generate_output_file_name
  rw [if_pos]
  exact Or.inr (by decide)

theorem gen_pdf_eq (md5 : String → String) (r w : String) :
    generate_output_file_name md5 r w "pdf" = .ok (output_name md5 r w "pdf") := by
  unfold generate_output_file_name
  rw [if_pos]
  exact Or.inl (by decide)

theorem save_text_eq (env : Env) (cfg : SpiderConfig) (st : SpiderState)
    (u : String) (resp : Response) :
    save_webpage_as_text env cfg st u resp =
      ({ st with files := (fsAppend st.files
          (cfg.raw_files_save_path ++ output_name env.md5hex cfg.root_site u "txt" ++ ".txt")
          (textHeaderEntry cfg.root_site u resp.text)) }, none) := by
  unfold save_webpage_as_text
  rw [gen_txt_eq]

theorem save_pdf_eq (env : Env) (cfg : SpiderConfig) (st : SpiderState)
    (u : String) (resp : Response) :
    save_webpage_as_pdf env cfg st u resp =
      ({ st with files := (fsWrite st.files
          (cfg.raw_files_save_path ++ output_name env.md5hex cfg.root_site u "pdf" ++ ".pdf")
          resp.content) }, none) := by
  unfold save_webpage_as_pdf
  rw [gen_pdf_eq]

theorem pyEndsWith_excl {a b : String} (s : String)
    (hab : ¬ a.data <:+ b.data) (hba : ¬ b.data <:+ a.data) :
    ¬ (pyEndsWith s a = true ∧ pyEndsWith s b = true) := by
  rintro ⟨ha, hb⟩
  simp only [pyEndsWith, decide_eq_true_eq] at ha hb
  rcases List.suffix_or_suffix_of_suffix ha hb with h | h
  · exact hab h
  · exact hba h

/-! Branch lemmas for the per-parent loop body. -/

theorem process_parent_visited (env : Env) (cfg : SpiderConfig) (st : SpiderState)
    (l : String) (h : l ∈ st.unique_links_set) :
    process_parent env cfg st l = (st, none) := by
  unfold process_parent
  rw [if_pos h]

theorem process_parent_non200 (env : Env) (cfg : SpiderConfig) (st : SpiderState)
    (l : String) (h : l ∉ st.unique_links_set) (h2 : (env.web l).status_code ≠ 200) :
    process_parent env cfg st l =
      ({ st with unique_links_set := st.unique_links_set ++ [l],
                 fetches := st.fetches ++ [l] }, none) := by
  simp [process_parent, h, h2]

theorem process_parent_sheet (env : Env) (cfg : SpiderConfig) (st : SpiderState)
    (l : String) (h : l ∉ st.unique_links_set) (h2 : (env.web l).status_code = 200)
    (hx : pyEndsWith (pyLower l) "xlsx" = true ∨ pyEndsWith (pyLower l) "xls" = true) :
    process_parent env cfg st l =
      ({ st with unique_links_set := st.unique_links_set ++ [l],
                 fetches := st.fetches ++ [l] }, none) := by
  have hpdf : pyEndsWith (pyLower l) "pdf" = false := by
    rcases hx with hx | hx
    · by_contra hp
      rw [Bool.not_eq_false] at hp
      exact pyEndsWith_excl (pyLower l) (by decide) (by decide) ⟨hx, hp⟩
    · by_contra hp
      rw [Bool.not_eq_false] at hp
      exact pyEndsWith_excl (pyLower l) (by decide) (by decide) ⟨hx, hp⟩
  rcases hx with hx | hx
  · simp [process_parent, h, h2, hpdf, hx]
  · have hxx : pyEndsWith (pyLower l) "xlsx" = false := by
      by_contra hp
      rw [Bool.not_eq_false] at hp
      exact pyEndsWith_excl (pyLower l) (by decide) (by decide) ⟨hx, hp⟩
    simp [process_parent, h, h2, hpdf, hxx, hx]

theorem process_parent_extract_text (env : Env) (cfg : SpiderConfig) (st : SpiderState)
    (l : String) (h : l ∉ st.unique_links_set) (h2 : (env.web l).status_code = 200)
    (hpdf : pyEndsWith (pyLower l) "pdf" = false)
    (hx1 : pyEndsWith (pyLower l) "xlsx" = false) (hx2 : pyEndsWith (pyLower l) "xls" = false) :
    process_parent env cfg st l =
      extract_and_index cfg
        ({ st with unique_links_set := st.unique_links_set ++ [l],
                   fetches := st.fetches ++ [l],
                   files := (fsAppend st.files
                     (cfg.raw_files_save_path ++ output_name env.md5hex cfg.root_site l "txt" ++ ".txt")
                     (textHeaderEntry cfg.root_site l (env.web l).text)) })
        l (env.web l) := by
  simp [process_parent, h, h2, hpdf, hx1, hx2, save_text_eq]

theorem process_parent_extract_pdf (env : Env) (cfg : SpiderConfig) (st : SpiderState)
    (l : String) (h : l ∉ st.unique_links_set) (h2 : (env.web l).status_code = 200)
    (hpdf : pyEndsWith (pyLower l) "pdf" = true) :
    process_parent env cfg st l =
      extract_and_index cfg
        ({ st with unique_links_set := st.unique_links_set ++ [l],
                   fetches := st.fetches ++ [l],
                   files := (fsWrite st.files
                     (cfg.raw_files_save_path ++ output_name env.md5hex cfg.root_site l "pdf" ++ ".pdf")
                     (env.web l).content) })
        l (env.web l) := by
  simp [process_parent, h, h2, hpdf, save_pdf_eq]

theorem extract_and_index_spec (cfg : SpiderConfig) (st : SpiderState)
    (l : String) (resp : Response) :
    (∃ cs, clean_webpage_links cfg.filter_word_list resp.links = .ok cs ∧
      (extract_and_index cfg st l resp).1.child_level_links =
        setUpdate st.child_level_links cs ∧
      (extract_and_index cfg st l resp).2 = none ∧
      (extract_and_index cfg st l resp).1.unique_links_set = st.unique_links_set ∧
      (extract_and_index cfg st l resp).1.fetches = st.fetches ∧
      ((extract_and_index cfg st l resp).1.sql_uploads = st.sql_uploads ∨
        ∃ rows, (∀ p ∈ rows, p.1 = cfg.pen_depth) ∧
          (extract_and_index cfg st l resp).1.sql_uploads =
            st.sql_uploads ++ [SqlUpload.index rows])) ∨
    (clean_webpage_links cfg.filter_word_list resp.links = .error () ∧
      extract_and_index cfg st l resp = (st, some Crash.typeError)) := by
  cases hc : clean_webpage_links cfg.filter_word_list resp.links with
  | error e =>
      right
      exact ⟨rfl, by simp [extract_and_index, hc]⟩
  | ok cs =>
      left
      refine ⟨cs, rfl, ?_⟩
      by_cases hidx : cfg.indexing_on
      · have heq : extract_and_index cfg st l resp =
            ({ st with
                child_level_links := setUpdate st.child_level_links cs,
                sql_uploads := st.sql_uploads ++ [SqlUpload.index
                  (create_parent_child_dataframe cfg.pen_depth l
                    (setUpdate st.child_level_links cs))] }, none) := by
          simp [extract_and_index, hc, hidx, upload_data_to_sql]
        rw [heq]
        refine ⟨rfl, rfl, rfl, rfl, Or.inr ⟨_, ?_, rfl⟩⟩
        intro p hp
        simp only [create_parent_child_dataframe, List.mem_map] at hp
        obtain ⟨c, _, rfl⟩ := hp
        rfl
      · simp [extract_and_index, hc, hidx]

/-- Effect of one loop body on the visited set, the fetch trace and the
upload trace: an already visited parent changes nothing, a new parent is
appended to the visited set and the fetch trace in the same step, and
the upload trace either is unchanged or gains one index upload all of
whose rows carry pen_depth in the first column. -/
theorem process_parent_step (env : Env) (cfg : SpiderConfig) (st : SpiderState) (l : String) :
    (l ∈ st.unique_links_set ∧ process_parent env cfg st l = (st, none)) ∨
    (l ∉ st.unique_links_set ∧
      (process_parent env cfg st l).1.unique_links_set = st.unique_links_set ++ [l] ∧
      (process_parent env cfg st l).1.fetches = st.fetches ++ [l] ∧
      ((process_parent env cfg st l).1.sql_uploads = st.sql_uploads ∨
        ∃ rows, (∀ p ∈ rows, p.1 = cfg.pen_depth) ∧
          (process_parent env cfg st l).1.sql_uploads =
            st.sql_uploads ++ [SqlUpload.index rows])) := by
  by_cases hv : l ∈ st.unique_links_set
  · exact Or.inl ⟨hv, process_parent_visited env cfg st l hv⟩
  refine Or.inr ⟨hv, ?_⟩
  by_cases h200 : (env.web l).status_code = 200
  · cases hpdf : pyEndsWith (pyLower l) "pdf" with
    | true =>
        rw [process_parent_extract_pdf env cfg st l hv h200 hpdf]
        rcases extract_and_index_spec cfg _ l (env.web l) with
          ⟨cs, hok, hch, hcr, hu, hf, hsql⟩ | ⟨herr, heq⟩
        · refine ⟨by rw [hu], by rw [hf], ?_⟩
          rcases hsql with hs | ⟨rows, hr, hs⟩
          · exact Or.inl (by rw [hs])
          · exact Or.inr ⟨rows, hr, by rw [hs]⟩
        · rw [heq]
          exact ⟨rfl, rfl, Or.inl rfl⟩
    | false =>
        cases hx1 : pyEndsWith (pyLower l) "xlsx" with
        | true =>
            rw [process_parent_sheet env cfg st l hv h200 (Or.inl hx1)]
            exact ⟨rfl, rfl, Or.inl rfl⟩
        | false =>
            cases hx2 : pyEndsWith (pyLower l) "xls" with
            | true =>
                rw [process_parent_sheet env cfg st l hv h200 (Or.inr hx2)]
                exact ⟨rfl, rfl, Or.inl rfl⟩
            | false =>
                rw [process_parent_extract_text env cfg st l hv h200 hpdf hx1 hx2]
                rcases extract_and_index_spec cfg _ l (env.web l) with
                  ⟨cs, hok, hch, hcr, hu, hf, hsql⟩ | ⟨herr, heq⟩
                · refine ⟨by rw [hu], by rw [hf], ?_⟩
                  rcases hsql with hs | ⟨rows, hr, hs⟩
                  · exact Or.inl (by rw [hs])
                  · exact Or.inr ⟨rows, hr, by rw [hs]⟩
                · rw [heq]
                  exact ⟨rfl, rfl, Or.inl rfl⟩
  · rw [process_parent_non200 env cfg st l hv h200]
    exact ⟨rfl, rfl, Or.inl rfl⟩

/-- Effect of one loop body on the accumulating child set for a not yet
visited parent: either the page is not extracted (bad status, or a
spreadsheet link) and the child set is untouched, or the page is
extracted and the cleaned links are merged into the child set when the
cleaning succeeds, while a cleaning TypeError aborts the body. -/
theorem process_parent_child (env : Env) (cfg : SpiderConfig) (st : SpiderState)
    (l : String) (hv : l ∉ st.unique_links_set) :
    (¬((env.web l).status_code = 200 ∧ pyEndsWith (pyLower l) "xlsx" = false ∧
        pyEndsWith (pyLower l) "xls" = false) ∧
      (process_parent env cfg st l).1.child_level_links = st.child_level_links ∧
      (process_parent env cfg st l).2 = none) ∨
    (((env.web l).status_code = 200 ∧ pyEndsWith (pyLower l) "xlsx" = false ∧
        pyEndsWith (pyLower l) "xls" = false) ∧
      ((∃ cs, clean_webpage_links cfg.filter_word_list (env.web l).links = .ok cs ∧
          (process_parent env cfg st l).1.child_level_links =
            setUpdate st.child_level_links cs ∧
          (process_parent env cfg st l).2 = none) ∨
        (clean_webpage_links cfg.filter_word_list (env.web l).links = .error () ∧
          (process_parent env cfg st l).2 = some Crash.typeError))) := by
  by_cases h200 : (env.web l).status_code = 200
  · cases hx1 : pyEndsWith (pyLower l) "xlsx" with
    | true =>
        rw [process_parent_sheet env cfg st l hv h200 (Or.inl hx1)]
        exact Or.inl ⟨by simp [hx1], rfl, rfl⟩
    | false =>
        cases hx2 : pyEndsWith (pyLower l) "xls" with
        | true =>
            rw [process_parent_sheet env cfg st l hv h200 (Or.inr hx2)]
            exact Or.inl ⟨by simp [hx2], rfl, rfl⟩
        | false =>
            refine Or.inr ⟨⟨h200, rfl, rfl⟩, ?_⟩
            cases hpdf : pyEndsWith (pyLower l) "pdf" with
            | true =>
                rw [process_parent_extract_pdf env cfg st l hv h200 hpdf]
                rcases extract_and_index_spec cfg _ l (env.web l) with
                  ⟨cs, hok, hch, hcr, _⟩ | ⟨herr, heq⟩
                · exact Or.inl ⟨cs, hok, hch, hcr⟩
                · exact Or.inr ⟨herr, by rw [heq]⟩
            | false =>
                rw [process_parent_extract_text env cfg st l hv h200 hpdf hx1 hx2]
                rcases extract_and_index_spec cfg _ l (env.web l) with
                  ⟨cs, hok, hch, hcr, _⟩ | ⟨herr, heq⟩
                · exact Or.inl ⟨cs, hok, hch, hcr⟩
                · exact Or.inr ⟨herr, by rw [heq]⟩
  · rw [process_parent_non200 env cfg st l hv h200]
    exact Or.inl ⟨by tauto, rfl, rfl⟩

/-- Any property of the spider state preserved by every loop body is
preserved by one whole frontier pass, crash or no crash. -/
theorem processLevel_invariant {P : SpiderState → Prop} (env : Env) (cfg : SpiderConfig)
    (hstep : ∀ st l, P st → P (process_parent env cfg st l).1) :
    ∀ (fr : List String) (st : SpiderState), P st → P (processLevel env cfg st fr).1 := by
  intro fr
  induction fr with
  | nil => intro st h; exact h
  | cons l ls ih =>
      intro st h
      rw [processLevel]
      rcases hp : process_parent env cfg st l with ⟨st1, c⟩
      have h1 : P st1 := by
        have := hstep st l h
        rw [hp] at this
        exact this
      cases c with
      | none => exact ih st1 h1
      | some c => exact h1

/-- Any property preserved by every loop body and by clearing the child
set is preserved by the whole depth loop. -/
theorem runLevels_invariant {P : SpiderState → Prop} (env : Env) (cfg : SpiderConfig)
    (hstep : ∀ st l, P st → P (process_parent env cfg st l).1)
    (hreset : ∀ st, P st → P { st with child_level_links := [] }) :
    ∀ (n : Nat) (fr : List String) (st : SpiderState), P st → P (runLevels env cfg n fr st).1 := by
  intro n
  induction n with
  | zero => intro fr st h; exact h
  | succ n ih =>
      intro fr st h
      rw [runLevels]
      rcases hp : processLevel env cfg { st with child_level_links := [] } fr with ⟨st1, c⟩
      have h1 : P st1 := by
        have := processLevel_invariant env cfg hstep fr _ (hreset st h)
        rw [hp] at this
        exact this
      cases c with
      | none => exact ih st1.child_level_links st1 h1
      | some c => exact h1

/-- Membership in the accumulating child set after one crash-free
frontier pass: exactly the links already accumulated plus every link
produced by cleaning the pages of the frontier parents that were not
yet visited when the pass started, were fetched with status 200 and are
not spreadsheet links. -/
theorem processLevel_child_mem (env : Env) (cfg : SpiderConfig) :
    ∀ (fr : List String) (st st' : SpiderState),
      processLevel env cfg st fr = (st', none) →
      ∀ x, x ∈ st'.child_level_links ↔
        (x ∈ st.child_level_links ∨
          ∃ p, p ∈ fr ∧ p ∉ st.unique_links_set ∧ (env.web p).status_code = 200 ∧
            pyEndsWith (pyLower p) "xlsx" = false ∧ pyEndsWith (pyLower p) "xls" = false ∧
            ∃ cs, clean_webpage_links cfg.filter_word_list (env.web p).links = .ok cs ∧
              x ∈ cs) := by
  intro fr
  induction fr with
  | nil =>
      intro st st' h x
      rw [processLevel] at h
      injection h with h1 h2
      subst h1
      simp
  | cons l ls ih =>
      intro st st' h x
      rw [processLevel] at h
      rcases hp : process_parent env cfg st l with ⟨st1, c⟩
      rw [hp] at h
      cases c with
      | some c => simp at h
      | none =>
          by_cases hv : l ∈ st.unique_links_set
          · have hst : st1 = st := by
              have h2 := process_parent_visited env cfg st l hv
              rw [hp] at h2
              exact (Prod.ext_iff.mp h2).1
            subst hst
            rw [ih st1 st' h x]
            constructor
            · rintro (hx | ⟨p, hm, hrest⟩)
              · exact Or.inl hx
              · exact Or.inr ⟨p, List.mem_cons_of_mem _ hm, hrest⟩
            · rintro (hx | ⟨p, hm, hnu, hrest⟩)
              · exact Or.inl hx
              · rcases List.mem_cons.1 hm with rfl | hm'
                · exact absurd hv hnu
                · exact Or.inr ⟨p, hm', hnu, hrest⟩
          · have hstep := process_parent_step env cfg st l
            rcases hstep with ⟨hvin, -⟩ | ⟨-, huniq, -, -⟩
            · exact absurd hvin hv
            rw [hp] at huniq
            have hchild := process_parent_child env cfg st l hv
            rw [hp] at hchild
            rcases hchild with ⟨hC, hch, -⟩ | ⟨hC, hsub⟩
            · rw [ih st1 st' h x, hch, huniq]
              constructor
              · rintro (hx | ⟨p, hm, hnu, hcond⟩)
                · exact Or.inl hx
                · refine Or.inr ⟨p, List.mem_cons_of_mem _ hm, ?_, hcond⟩
                  intro hmem
                  exact hnu (List.mem_append.2 (Or.inl hmem))
              · rintro (hx | ⟨p, hm, hnu, h200, hx1, hx2, hD⟩)
                · exact Or.inl hx
                · rcases List.mem_cons.1 hm with rfl | hm'
                  · exact absurd ⟨h200, hx1, hx2⟩ hC
                  · refine Or.inr ⟨p, hm', ?_, h200, hx1, hx2, hD⟩
                    intro hmem
                    rcases List.mem_append.1 hmem with hmem | hmem
                    · exact hnu hmem
                    · have := List.mem_singleton.1 hmem
                      subst this
                      exact hC ⟨h200, hx1, hx2⟩
            · rcases hsub with ⟨cs, hok, hch, -⟩ | ⟨herr, hcr⟩
              · obtain ⟨h200, hx1, hx2⟩ := hC
                rw [ih st1 st' h x, hch, setUpdate_mem, huniq]
                constructor
                · rintro ((hx | hxcs) | ⟨p, hm, hnu, hcond⟩)
                  · exact Or.inl hx
                  · exact Or.inr ⟨l, List.mem_cons_self _ _, hv, h200, hx1, hx2, cs, hok, hxcs⟩
                  · refine Or.inr ⟨p, List.mem_cons_of_mem _ hm, ?_, hcond⟩
                    intro hmem
                    exact hnu (List.mem_append.2 (Or.inl hmem))
                · rintro (hx | ⟨p, hm, hnu, hp200, hpx1, hpx2, cs', hok', hxcs'⟩)
                  · exact Or.inl (Or.inl hx)
                  · by_cases hpl : p = l
                    · subst hpl
                      have hcc : cs = cs' := by
                        rw [hok] at hok'
                        exact Except.ok.inj hok'
                      subst hcc
                      exact Or.inl (Or.inr hxcs')
                    · rcases List.mem_cons.1 hm with rfl | hm'
                      · exact absurd rfl hpl
                      · refine Or.inr ⟨p, hm', ?_, hp200, hpx1, hpx2, cs', hok', hxcs'⟩
                        intro hmem
                        rcases List.mem_append.1 hmem with hmem | hmem
                        · exact hnu hmem
                        · exact hpl (List.mem_singleton.1 hmem)
              · simp at hcr

/-- The closing lines of run_spider change neither the visited set, the
fetch trace nor the child set, and at most append one unique-links
upload to the upload trace. -/
theorem finishRun_fields (cfg : SpiderConfig) (r : SpiderState × Option Crash) :
    (finishRun cfg r).1.unique_links_set = r.1.unique_links_set ∧
    (finishRun cfg r).1.fetches = r.1.fetches ∧
    (finishRun cfg r).1.child_level_links = r.1.child_level_links ∧
    ((finishRun cfg r).1.sql_uploads = r.1.sql_uploads ∨
      (finishRun cfg r).1.sql_uploads = r.1.sql_uploads ++
        [SqlUpload.unique_links (create_unique_links_df r.1.unique_links_set)]) := by
  rcases r with ⟨st, c⟩
  cases c with
  | some c => simp [finishRun]
  | none =>
      by_cases hidx : cfg.indexing_on <;>
        simp [finishRun, hidx, upload_data_to_sql]

/-- With indexing off, one extraction step performs no upload. -/
theorem extract_and_index_sql_off (cfg : SpiderConfig) (st : SpiderState)
    (l : String) (resp : Response) (h : cfg.indexing_on = false) :
    (extract_and_index cfg st l resp).1.sql_uploads = st.sql_uploads := by
  cases hc : clean_webpage_links cfg.filter_word_list resp.links with
  | error e => simp [extract_and_index, hc]
  | ok cs => simp [extract_and_index, hc, h]

/-- With indexing off, one loop body performs no upload. -/
theorem process_parent_sql_off (env : Env) (cfg : SpiderConfig) (st : SpiderState)
    (l : String) (h : cfg.indexing_on = false) :
    (process_parent env cfg st l).1.sql_uploads = st.sql_uploads := by
  by_cases hv : l ∈ st.unique_links_set
  · rw [process_parent_visited env cfg st l hv]
  · by_cases h200 : (env.web l).status_code = 200
    · cases hpdf : pyEndsWith (pyLower l) "pdf" with
      | true =>
          rw [process_parent_extract_pdf env cfg st l hv h200 hpdf]
          exact extract_and_index_sql_off cfg _ l (env.web l) h
      | false =>
          cases hx1 : pyEndsWith (pyLower l) "xlsx" with
          | true => rw [process_parent_sheet env cfg st l hv h200 (Or.inl hx1)]
          | false =>
              cases hx2 : pyEndsWith (pyLower l) "xls" with
              | true => rw [process_parent_sheet env cfg st l hv h200 (Or.inr hx2)]
              | false =>
                  rw [process_parent_extract_text env cfg st l hv h200 hpdf hx1 hx2]
                  exact extract_and_index_sql_off cfg _ l (env.web l) h
    · rw [process_parent_non200 env cfg st l hv h200]

/-! Claim theorems. -/

/-- C2: a candidate that is not None and not exactly the slash string is
retained by clean_webpage_links if and only if at least one deny-word in
the filter list is not a substring of it; equivalently such a candidate
is dropped if and only if every deny-word is a substring of it. -/
theorem C2_filter_retention (fwl : List String) (links : List (Option String))
    (S : List String) (s : String) (hok : clean_webpage_links fwl links = .ok S)
    (hmem : some s ∈ links) (hs : s ≠ "/") :
    s ∈ S ↔ ∃ w ∈ fwl, strContains s w = false := by
  rw [clean_webpage_links_mem fwl links S hok s]
  constructor
  · rintro ⟨-, -, h⟩
    exact h
  · intro h
    exact ⟨hmem, hs, h⟩

/-- C2 witness: with deny-list a and candidate b, the candidate is in
the returned set and indeed one deny-word is not a substring of it. -/
theorem C2_filter_retention_witness :
    ("b" ∈ (["b"] : List String)) ↔ ∃ w ∈ (["a"] : List String), strContains "b" w = false :=
  C2_filter_retention ["a"] [some "b"] ["b"] "b" (by decide) (by decide) (by decide)

/-- C3 counterexample: on the spec scenario candidate list the filter
produces no set at all: the substring test applied to the None candidate
raises TypeError, so the claimed retention of the login link fails. -/
theorem C3_counterexample :
    clean_webpage_links ["login"]
      [some "/about", some "http://example.com/login", none] = .error () := by
  decide

/-- C3 (amended): with deny-list exactly login, cleaning the literal
candidate list raises TypeError on the None candidate and the run
aborts while processing the root; with the None candidate removed the
filter returns exactly the /about link (the login link contains the
only deny-word, so it is dropped) and frontier(1) is exactly /about. -/
theorem C3_amended_scenario :
    clean_webpage_links ["login"] [some "/about", some "http://example.com/login"] =
      .ok ["/about"] ∧
    (processLevel envEx cfgEx (initState []) ["http://example.com"]).2 =
      some Crash.typeError ∧
    (processLevel envEx2 cfgEx (initState []) ["http://example.com"]).1.child_level_links =
      ["/about"] ∧
    (processLevel envEx2 cfgEx (initState []) ["http://example.com"]).2 = none := by
  decide

/-- C4 counterexample: with deny-list login the empty-string candidate
is retained by the filter, not dropped. -/
theorem C4_counterexample :
    clean_webpage_links ["login"] [some ""] = .ok [""] ∧
    ("" ∈ ([""] : List String)) := by
  decide

/-- C4 (amended): the returned set never contains the slash string and
every element of it comes from a non-None candidate (so None is never
returned), but the empty string is not always dropped: it survives
whenever some deny-word is not a substring of it. -/
theorem C4_amended_always_dropped (fwl : List String) (links : List (Option String))
    (S : List String) (hok : clean_webpage_links fwl links = .ok S) :
    "/" ∉ S ∧ ∀ s ∈ S, some s ∈ links := by
  constructor
  · intro hmem
    rcases (clean_webpage_links_mem fwl links S hok "/").1 hmem with ⟨-, hne, -⟩
    exact hne rfl
  · intro s hsm
    exact ((clean_webpage_links_mem fwl links S hok s).1 hsm).1

/-- C4 witness: on a concrete successful filter call, the slash string
is absent and every returned link came from the candidate list. -/
theorem C4_amended_always_dropped_witness :
    ("/" ∉ (["b"] : List String)) ∧
      ∀ s ∈ (["b"] : List String), some s ∈ [some "b"] :=
  C4_amended_always_dropped ["a"] [some "b"] ["b"] (by decide)

/-- C9: generate_output_file_name is deterministic: for every digest
function, root site, webpage and valid file-type flag it succeeds with
one fixed name, and every successful result equals that name. -/
theorem C9_deterministic_name (md5hex : String → String) (r w f : String)
    (h : pyLower f = "pdf" ∨ pyLower f = "txt") :
    ∃ n, generate_output_file_name md5hex r w f = .ok n ∧
      ∀ n', generate_output_file_name md5hex r w f = .ok n' → n' = n := by
  refine ⟨output_name md5hex r w f, ?_, ?_⟩
  · unfold generate_output_file_name
    rw [if_pos h]
  · intro n' h'
    unfold generate_output_file_name at h'
    rw [if_pos h] at h'
    exact (Except.ok.inj h').symm

/-- C9 witness: the txt flag is valid and naming is deterministic at a
concrete input. -/
theorem C9_deterministic_name_witness :
    ∃ n, generate_output_file_name md5c "r" "w" "txt" = .ok n ∧
      ∀ n', generate_output_file_name md5c "r" "w" "txt" = .ok n' → n' = n :=
  C9_deterministic_name md5c "r" "w" "txt" (by decide)

/-- C10: a not yet visited frontier link whose lowercase form ends in
xlsx or xls is still marked visited and fetched, but on a 200 response
nothing else happens: no file write, no extraction, no contribution to
the next frontier, no Edge upload and no crash. -/
theorem C10_spreadsheet_skip (env : Env) (cfg : SpiderConfig) (st : SpiderState)
    (l : String) (hv : l ∉ st.unique_links_set)
    (hx : pyEndsWith (pyLower l) "xlsx" = true ∨ pyEndsWith (pyLower l) "xls" = true)
    (h200 : (env.web l).status_code = 200) :
    process_parent env cfg st l =
      ({ st with unique_links_set := st.unique_links_set ++ [l],
                 fetches := st.fetches ++ [l] }, none) :=
  process_parent_sheet env cfg st l hv h200 hx

/-- C10 witness: concrete spreadsheet link on an always-200 web. -/
theorem C10_spreadsheet_skip_witness :
    process_parent envSheet cfgOff (initState []) "a.xlsx" =
      ({ initState [] with unique_links_set := ["a.xlsx"], fetches := ["a.xlsx"] }, none) :=
  C10_spreadsheet_skip envSheet cfgOff (initState []) "a.xlsx" (by decide)
    (Or.inl (by decide)) (by decide)

/-- C1 counterexample: in a completed indexing run with penetration
depth 3 the root r is fetched at depth 0, yet its Edge row records 3,
the constant pen_depth, as the depth component, so the claim that the
fetch depth of the parent is recorded is false. -/
theorem C1_counterexample :
    (run_spider envR cfgR []).2 = none ∧
    (run_spider envR cfgR []).1.sql_uploads =
      [SqlUpload.index [(3, "r", "zzz")], SqlUpload.index [],
       SqlUpload.unique_links [(0, "r"), (1, "zzz")]] ∧
    (3 : Nat) ≠ 0 := by
  decide

/-- C1 (amended): whenever indexing is enabled, every row of every Edge
batch emitted during a run records cfg.pen_depth, the constant
penetration depth of the run, as its depth component, whatever depth
the parent was fetched at. -/
theorem C1_amended_edge_depth (env : Env) (cfg : SpiderConfig)
    (files0 : List (String × String)) (rows : List (Nat × String × String))
    (row : Nat × String × String)
    (hmem : SqlUpload.index rows ∈ (run_spider env cfg files0).1.sql_uploads)
    (hrow : row ∈ rows) : row.1 = cfg.pen_depth := by
  have hstep : ∀ st l, EdgeDepthInv cfg st → EdgeDepthInv cfg (process_parent env cfg st l).1 := by
    intro st l hst rs hmem' r hr
    rcases process_parent_step env cfg st l with ⟨-, heq⟩ | ⟨-, -, -, hsql⟩
    · rw [heq] at hmem'
      exact hst rs hmem' r hr
    · rcases hsql with hs | ⟨rows0, hprop, hs⟩
      · rw [hs] at hmem'
        exact hst rs hmem' r hr
      · rw [hs] at hmem'
        rcases List.mem_append.1 hmem' with hmem' | hmem'
        · exact hst rs hmem' r hr
        · have heq2 := List.mem_singleton.1 hmem'
          have hrs : rs = rows0 := SqlUpload.index.inj heq2
          subst hrs
          exact hprop r hr
  have hres : EdgeDepthInv cfg
      (runLevels env cfg cfg.pen_depth [cfg.root_site] (initState files0)).1 :=
    runLevels_invariant env cfg hstep (fun st h => h)
      cfg.pen_depth [cfg.root_site] (initState files0)
      (fun rs h => absurd h (by simp [initState]))
  have hff := finishRun_fields cfg
    (runLevels env cfg cfg.pen_depth [cfg.root_site] (initState files0))
  rw [show run_spider env cfg files0 =
        finishRun cfg (runLevels env cfg cfg.pen_depth [cfg.root_site] (initState files0))
      from rfl] at hmem
  rcases hff.2.2.2 with hs | hs
  · rw [hs] at hmem
    exact hres rows hmem row hrow
  · rw [hs] at hmem
    rcases List.mem_append.1 hmem with hmem | hmem
    · exact hres rows hmem row hrow
    · have hbad := List.mem_singleton.1 hmem
      simp at hbad

/-- C1 witness: the amended theorem applied to the concrete indexing
run, at its first Edge row. -/
theorem C1_amended_edge_depth_witness : ((3 : Nat), ("r", "zzz")).1 = cfgR.pen_depth :=
  C1_amended_edge_depth envR cfgR [] [(3, "r", "zzz")] (3, ("r", "zzz"))
    (by decide) (by decide)

/-- C5: across any run every link reaches the fetcher at most once and
only together with its insertion into the visited set; an already
visited link is skipped with no state change at all; and the visited
set only ever grows by appending, never by removal. -/
theorem C5_fetch_once (env : Env) (cfg : SpiderConfig) (files0 : List (String × String)) :
    ((run_spider env cfg files0).1.fetches.Nodup ∧
      ∀ x ∈ (run_spider env cfg files0).1.fetches,
        x ∈ (run_spider env cfg files0).1.unique_links_set) ∧
    (∀ st l, l ∈ st.unique_links_set → process_parent env cfg st l = (st, none)) ∧
    (∀ st l, l ∉ st.unique_links_set →
      (process_parent env cfg st l).1.unique_links_set = st.unique_links_set ++ [l] ∧
      (process_parent env cfg st l).1.fetches = st.fetches ++ [l]) ∧
    (∀ n fr st, ∃ t, (runLevels env cfg n fr st).1.unique_links_set =
      st.unique_links_set ++ t) := by
  refine ⟨?_, ?_, ?_, ?_⟩
  · have hstep : ∀ st l,
        (st.fetches.Nodup ∧ ∀ x ∈ st.fetches, x ∈ st.unique_links_set) →
        ((process_parent env cfg st l).1.fetches.Nodup ∧
          ∀ x ∈ (process_parent env cfg st l).1.fetches,
            x ∈ (process_parent env cfg st l).1.unique_links_set) := by
      rintro st l ⟨hnd, hsub⟩
      rcases process_parent_step env cfg st l with ⟨-, heq⟩ | ⟨hv, hu, hf, -⟩
      · rw [heq]
        exact ⟨hnd, hsub⟩
      · rw [hu, hf]
        have hnl : l ∉ st.fetches := fun hm => hv (hsub l hm)
        constructor
        · rw [List.nodup_append]
          refine ⟨hnd, List.nodup_singleton l, ?_⟩
          intro a ha hb
          rw [List.mem_singleton] at hb
          subst hb
          exact hnl ha
        · intro x hx
          rcases List.mem_append.1 hx with hx | hx
          · exact List.mem_append.2 (Or.inl (hsub x hx))
          · exact List.mem_append.2 (Or.inr hx)
    have hres := runLevels_invariant env cfg hstep (fun st h => h)
      cfg.pen_depth [cfg.root_site] (initState files0)
      ⟨List.nodup_nil, fun x hx => absurd hx (by simp [initState])⟩
    have hff := finishRun_fields cfg
      (runLevels env cfg cfg.pen_depth [cfg.root_site] (initState files0))
    rw [show run_spider env cfg files0 =
          finishRun cfg (runLevels env cfg cfg.pen_depth [cfg.root_site] (initState files0))
        from rfl]
    rw [hff.1, hff.2.1]
    exact hres
  · exact fun st l h => process_parent_visited env cfg st l h
  · intro st l hv
    rcases process_parent_step env cfg st l with ⟨hvin, -⟩ | ⟨-, hu, hf, -⟩
    · exact absurd hvin hv
    · exact ⟨hu, hf⟩
  · intro n fr st
    have hstep : ∀ st' l, (∃ t, st'.unique_links_set = st.unique_links_set ++ t) →
        ∃ t, (process_parent env cfg st' l).1.unique_links_set =
          st.unique_links_set ++ t := by
      intro st' l h
      rcases h with ⟨t, ht⟩
      rcases process_parent_step env cfg st' l with ⟨-, heq⟩ | ⟨-, hu, -, -⟩
      · rw [heq]
        exact ⟨t, ht⟩
      · rw [hu, ht]
        exact ⟨t ++ [l], List.append_assoc _ _ _⟩
    exact runLevels_invariant env cfg hstep (fun st' h => h) n fr st
      ⟨[], (List.append_nil _).symm⟩

/-- C5 witness: the skip clause and the mark-and-fetch clause applied to
concrete states. -/
theorem C5_fetch_once_witness :
    (process_parent envFail cfgOff
        { initState [] with unique_links_set := ["a"] } "a" =
      ({ initState [] with unique_links_set := ["a"] }, none)) ∧
    (process_parent envFail cfgOff (initState []) "a").1.unique_links_set = [] ++ ["a"] ∧
    (process_parent envFail cfgOff (initState []) "a").1.fetches = [] ++ ["a"] := by
  refine ⟨(C5_fetch_once envFail cfgOff []).2.1 _ "a" (by decide), ?_⟩
  exact (C5_fetch_once envFail cfgOff []).2.2.1 (initState []) "a" (by decide)

/-- C6: frontier(0) is exactly the root site; after a crash-free pass
over frontier(d) the accumulated child set is handed over verbatim as
frontier(d+1); and that accumulated set holds exactly the union of the
cleaned child-link sets of those frontier parents that were not yet
visited at the start of the pass, were fetched with status 200 and were
actually extracted (not spreadsheet links). -/
theorem C6_frontier (env : Env) (cfg : SpiderConfig) :
    (∀ files0, run_spider env cfg files0 =
      finishRun cfg (runLevels env cfg cfg.pen_depth [cfg.root_site] (initState files0))) ∧
    (∀ (n : Nat) (fr : List String) (st st' : SpiderState),
      processLevel env cfg { st with child_level_links := [] } fr = (st', none) →
      runLevels env cfg (n + 1) fr st = runLevels env cfg n st'.child_level_links st') ∧
    (∀ (fr : List String) (st st' : SpiderState) (x : String),
      processLevel env cfg { st with child_level_links := [] } fr = (st', none) →
      (x ∈ st'.child_level_links ↔
        ∃ p, p ∈ fr ∧ p ∉ st.unique_links_set ∧ (env.web p).status_code = 200 ∧
          pyEndsWith (pyLower p) "xlsx" = false ∧ pyEndsWith (pyLower p) "xls" = false ∧
          ∃ cs, clean_webpage_links cfg.filter_word_list (env.web p).links = .ok cs ∧
            x ∈ cs)) := by
  refine ⟨fun files0 => rfl, ?_, ?_⟩
  · intro n fr st st' h
    rw [runLevels, h]
  · intro fr st st' x h
    have hmem := processLevel_child_mem env cfg fr _ st' h x
    simpa using hmem

/-- C6 witness: the frontier characterisation applied to a one-link
frontier on the all-404 web: the next frontier is empty and indeed no
parent satisfies the successful-extraction condition. -/
theorem C6_frontier_witness :
    ("y" ∈ ({ initState [] with unique_links_set := ["q"], fetches := ["q"] } : SpiderState).child_level_links) ↔
      ∃ p, p ∈ ["q"] ∧ p ∉ (initState []).unique_links_set ∧
        (envFail.web p).status_code = 200 ∧
        pyEndsWith (pyLower p) "xlsx" = false ∧ pyEndsWith (pyLower p) "xls" = false ∧
        ∃ cs, clean_webpage_links cfgOff.filter_word_list (envFail.web p).links = .ok cs ∧
          "y" ∈ cs :=
  (C6_frontier envFail cfgOff).2.2 ["q"] (initState [])
    { initState [] with unique_links_set := ["q"], fetches := ["q"] } "y" (by decide)

/-- C7 (code bug in the source): with indexing disabled the run indeed
performs zero SQL uploads, but it never completes normally: the last
line of run_spider unconditionally dereferences
indexing_definitions_obj, which is unbound, so every otherwise
successful run ends in AttributeError; shown also on the concrete
all-404 run. -/
theorem C7_indexing_disabled_crash :
    (∀ env cfg files0, cfg.indexing_on = false →
      (run_spider env cfg files0).1.sql_uploads = [] ∧
      (run_spider env cfg files0).2 ≠ none) ∧
    run_spider envFail cfgOff [] =
      ({ unique_links_set := ["http://example.com"], child_level_links := [],
         fetches := ["http://example.com"], sql_uploads := [], dispose_calls := 0,
         files := [] }, some Crash.attributeError) := by
  constructor
  · intro env cfg files0 hoff
    have hstep : ∀ st l, st.sql_uploads = [] →
        (process_parent env cfg st l).1.sql_uploads = [] := by
      intro st l h
      rw [process_parent_sql_off env cfg st l hoff]
      exact h
    have hres : (runLevels env cfg cfg.pen_depth [cfg.root_site] (initState files0)).1.sql_uploads
        = [] :=
      runLevels_invariant env cfg hstep (fun st h => h)
        cfg.pen_depth [cfg.root_site] (initState files0) rfl
    rw [show run_spider env cfg files0 =
          finishRun cfg (runLevels env cfg cfg.pen_depth [cfg.root_site] (initState files0))
        from rfl]
    rcases hr : runLevels env cfg cfg.pen_depth [cfg.root_site] (initState files0) with ⟨st, c⟩
    rw [hr] at hres
    cases c with
    | some c =>
        refine ⟨?_, by simp [finishRun]⟩
        simpa [finishRun] using hres
    | none =>
        refine ⟨?_, by simp [finishRun, hoff]⟩
        simpa [finishRun, hoff] using hres
  · decide

/-- C7 witness: the general clause applied to the concrete
indexing-disabled configuration. -/
theorem C7_indexing_disabled_crash_witness :
    (run_spider envFail cfgOff []).1.sql_uploads = [] ∧
    (run_spider envFail cfgOff []).2 ≠ none :=
  C7_indexing_disabled_crash.1 envFail cfgOff [] (by decide)

/-- C8 counterexample: persisting the same fetched text page twice does
not overwrite: the stored file ends up holding two copies of the header
and body, which differs from the content after a single save. -/
theorem C8_counterexample :
    fsGet (save_webpage_as_text envFail cfgOff
        (save_webpage_as_text envFail cfgOff (initState []) "u" ⟨200, [], "B", "B"⟩).1
        "u" ⟨200, [], "B", "B"⟩).1.files
      "/tmp/http:__example.comH.txt.txt" =
      some ("root_site:http://example.com\nweb_url:u\nBroot_site:http://example.com\nweb_url:u\nB") ∧
    fsGet (save_webpage_as_text envFail cfgOff (initState []) "u" ⟨200, [], "B", "B"⟩).1.files
      "/tmp/http:__example.comH.txt.txt" =
      some ("root_site:http://example.com\nweb_url:u\nB") ∧
    ("root_site:http://example.com\nweb_url:u\nBroot_site:http://example.com\nweb_url:u\nB" ≠
      "root_site:http://example.com\nweb_url:u\nB") := by
  decide

/-- C8 (amended): the same root and link always map to the same file
identity for both savers; a repeated PDF save overwrites the same file
and is idempotent; but a repeated text save appends a second copy of the
header and body to the same file rather than overwriting it. -/
theorem C8_amended_persistence (env : Env) (cfg : SpiderConfig) (st : SpiderState)
    (u : String) (resp : Response) :
    save_webpage_as_pdf env cfg (save_webpage_as_pdf env cfg st u resp).1 u resp =
      save_webpage_as_pdf env cfg st u resp ∧
    (save_webpage_as_text env cfg st u resp).1.files =
      fsAppend st.files
        (cfg.raw_files_save_path ++ output_name env.md5hex cfg.root_site u "txt" ++ ".txt")
        (textHeaderEntry cfg.root_site u resp.text) ∧
    fsGet (save_webpage_as_text env cfg
        (save_webpage_as_text env cfg st u resp).1 u resp).1.files
      (cfg.raw_files_save_path ++ output_name env.md5hex cfg.root_site u "txt" ++ ".txt") =
      some ((fsGet st.files
          (cfg.raw_files_save_path ++ output_name env.md5hex cfg.root_site u "txt" ++ ".txt")).getD ""
        ++ textHeaderEntry cfg.root_site u resp.text
        ++ textHeaderEntry cfg.root_site u resp.text) := by
  refine ⟨?_, ?_, ?_⟩
  · rw [save_pdf_eq env cfg st u resp, save_pdf_eq]
    simp [fsWrite_fsWrite]
  · rw [save_text_eq]
  · rw [save_text_eq env cfg st u resp, save_text_eq]
    simp only [fsAppend, fsGet_fsWrite_self, Option.getD_some]

end WebSpiderModel
